import Mathlib

/-!
Verification development for the CodeOfMusic_Parser repository.

The development shallowly embeds the repository's front end and evaluator:

* the Lisp-like tokenizer and recursive-descent parser of the bracket-aware
  parser revision (`getLineAndColumn`, `preprocess`, `tokenize`, `parse`);
* the evaluator of the named-argument revision (`createEnv`/`extendEnv`,
  `extractValue`, `processArgs`, `evalLet`, `evalLambda`, `evalIf`,
  `evalApplication`, `evaluate`, `interpret`) together with its primitive
  library (arithmetic, comparison, and the music constructors
  `note`, `chord`, `sequence`, `parallel`, `beat-machine`, `drum-machine`,
  `arrangement`, `track`, `step`, `effect`, plus the debug helpers);
* the drum-machine data extraction of `parser.js` (`findArgument`,
  the `bars`/`time` fields of `extractData`) and the effective track length
  computation of the player's `createParts` (`totalNotes`).

Modelling conventions:

* JavaScript numbers are modelled as exact fractions (`JSNum`, an integer
  numerator/denominator pair with value-level equality) plus an explicit `nan`
  value.  Every computation exercised by the theorems below stays on small
  decimal values on which IEEE doubles are exact, so exact fractions agree
  with the source.  JavaScript `Infinity` (division by zero, `pow` corner
  cases) is approximated by `nan`; no theorem below exercises those corners.
* JavaScript string coercion of non-numeric, non-string values (e.g. `+` on
  objects, computed property keys from non-strings) is approximated by fixed
  placeholder results; no theorem below exercises those corners.
* Reference equality of objects/arrays/functions under `===` is modelled as
  `false` (two structurally distinct heap objects); no theorem compares
  object identities.
* Properties inherited from `Object.prototype` (`'toString' in obj` is true in
  JavaScript) are not modelled; no theorem uses such names.
* The `try`/`catch` in `evaluate` only decorates error message text; errors
  are modelled as structured kinds and the message decoration is not modelled.
* Recursion of the parser and the evaluator is made total with an explicit
  fuel parameter; running out of fuel is a dedicated error distinct from all
  errors the source can raise.
-/

/-- An exact fraction representing a JavaScript number.  The denominator is
kept nonzero (and positive) by every constructing operation; fractions are not
normalised, and all comparisons go through the value-level `JSNum.eq`. -/
structure JSNum where
  num : Int
  den : Int
  deriving DecidableEq

/-- An integer as a `JSNum`. -/
def JSNum.ofInt (n : Int) : JSNum := ⟨n, 1⟩

/-- Value-level equality of fractions (cross multiplication). -/
def JSNum.eq (a b : JSNum) : Bool := a.num * b.den = b.num * a.den

/-- Is the fraction the value zero? -/
def JSNum.isZero (a : JSNum) : Bool := a.num = 0

/-- Normalise the sign so the denominator is positive. -/
def JSNum.normSign (a : JSNum) : JSNum :=
  if a.den < 0 then ⟨-a.num, -a.den⟩ else a

/-- Exact fraction addition. -/
def JSNum.add (a b : JSNum) : JSNum := ⟨a.num * b.den + b.num * a.den, a.den * b.den⟩

/-- Exact fraction subtraction. -/
def JSNum.sub (a b : JSNum) : JSNum := ⟨a.num * b.den - b.num * a.den, a.den * b.den⟩

/-- Exact fraction multiplication. -/
def JSNum.mul (a b : JSNum) : JSNum := ⟨a.num * b.num, a.den * b.den⟩

/-- Exact fraction negation. -/
def JSNum.neg (a : JSNum) : JSNum := ⟨-a.num, a.den⟩

/-- Exact fraction division (the caller excludes a zero divisor). -/
def JSNum.div (a b : JSNum) : JSNum := JSNum.normSign ⟨a.num * b.den, a.den * b.num⟩

/-- Truncation toward zero, as JavaScript `%` requires (`Int.tdiv` is
T-division). -/
def JSNum.trunc (a : JSNum) : Int := Int.tdiv a.num a.den

/-- Value-level strict order (denominators are positive by construction). -/
def JSNum.lt (a b : JSNum) : Bool := a.num * b.den < b.num * a.den

/-- Value-level non-strict order. -/
def JSNum.le (a b : JSNum) : Bool := a.num * b.den ≤ b.num * a.den

/-- Does the fraction denote an integer, and which one (for `Math.pow`)? -/
def JSNum.toInt? (a : JSNum) : Option Int :=
  if Int.tmod a.num a.den = 0 then some (Int.tdiv a.num a.den) else none

/-- Exact integer power of a fraction (the caller excludes `0` to a negative
power). -/
def JSNum.pow (a : JSNum) (n : Int) : JSNum :=
  if 0 ≤ n then ⟨a.num ^ n.toNat, a.den ^ n.toNat⟩
  else JSNum.normSign ⟨a.den ^ (-n).toNat, a.num ^ (-n).toNat⟩

/-- A JavaScript runtime value as used by the interpreter: numbers (with NaN),
plain strings (symbols and old-format literals), string-literal token objects
`{type: 'string', value}`, booleans, arrays, plain objects (field lists in
insertion order), user closures (captured `params`, `body`, environment),
primitive-function references, environment values (functions passed as data),
`null`, and `undefined`. -/
inductive JSVal where
  | num (q : JSNum)
  | nan
  | str (s : String)
  | strObj (s : String)
  | boolV (b : Bool)
  | arr (elems : List JSVal)
  | obj (fields : List (String × JSVal))
  | closure (params : JSVal) (body : List JSVal) (env : List (List (String × JSVal)))
  | primF (name : String)
  | envV (env : List (List (String × JSVal)))
  | jsNull
  | undef

/-- An environment is a chain of binding frames, innermost first; each frame is
an assoc list in insertion order (`createEnv`'s copied `bindings` object). -/
abbrev JSEnv := List (List (String × JSVal))

/-- The single-quote character, used as the quote marker by the tokenizer. -/
def quoteChar : Char := Char.ofNat 39

/-- The double-quote character, the string delimiter. -/
def dquoteChar : Char := Char.ofNat 34

/-- Whitespace characters recognised by the embedding of `trim` and `\s`. -/
def isWs (c : Char) : Bool :=
  c = ' ' || c = '\t' || c = '\n' || c = '\r'

/-- Embedding of `getLineAndColumn`: 1-based line and column of `position` in
`input`, computed by splitting the prefix before `position` at newlines. -/
def getLineAndColumn (input : List Char) (position : Nat) : Nat × Nat :=
  let pre := input.take position
  (pre.count '\n' + 1, (pre.reverse.takeWhile (fun c => c ≠ '\n')).length + 1)

/-- State machine for the comment-stripping regex `/;[^\n]*/g`: with the flag
set (inside a comment) characters are discarded until a newline; otherwise a
semicolon enters a comment and every other character is kept. -/
def stripCommentsGo : Bool → List Char → List Char
  | _, [] => []
  | inComment, c :: rest =>
    if inComment then
      if c = '\n' then c :: stripCommentsGo false rest
      else stripCommentsGo true rest
    else
      if c = ';' then stripCommentsGo true rest
      else c :: stripCommentsGo false rest

/-- Embedding of the comment-stripping regex `/;[^\n]*/g`: a semicolon and all
following characters up to (not including) the next newline are removed. -/
def stripComments (cs : List Char) : List Char :=
  stripCommentsGo false cs

/-- Embedding of `String.prototype.trim`: leading and trailing whitespace
removed. -/
def jsTrim (cs : List Char) : List Char :=
  ((cs.dropWhile isWs).reverse.dropWhile isWs).reverse

/-- State machine for the whitespace-collapsing regex `.replace(/\s+/g, ' ')`:
the flag records that the current whitespace run has already emitted its
single space. -/
def collapseWsGo : Bool → List Char → List Char
  | _, [] => []
  | afterWs, c :: rest =>
    if isWs c then
      if afterWs then collapseWsGo true rest
      else ' ' :: collapseWsGo true rest
    else c :: collapseWsGo false rest

/-- Embedding of the whitespace-collapsing regex `.replace(/\s+/g, ' ')`:
every maximal run of whitespace becomes a single space. -/
def collapseWs (cs : List Char) : List Char :=
  collapseWsGo false cs

/-- Embedding of the tokenizer's `preprocess`: strip comments, trim, collapse
whitespace. -/
def preprocess (input : List Char) : List Char :=
  collapseWs (jsTrim (stripComments input))

/-- The value of a token: punctuation character, string literal, number, or
symbol, mirroring the `type` tags the tokenizer attaches. -/
inductive TokValue where
  | punct (c : Char)
  | strT (s : String)
  | numT (q : JSNum)
  | symT (s : String)

/-- A token: value plus its recorded position data (offset into the
preprocessed text, and the line/column the tokenizer computed for it). -/
structure Token where
  value : TokValue
  position : Nat
  line : Nat
  column : Nat

/-- Characters that terminate an atom: space, quote, brackets, double quote
(the tokenizer's set `" '()[]\""`). -/
def isAtomDelim (c : Char) : Bool :=
  c = ' ' || c = quoteChar || c = '(' || c = ')' || c = '[' || c = ']' || c = dquoteChar

/-- Numeric-literal recognition for atoms, embedding `isNaN(atom)` /
`Number(atom)` on the decimal literals the language uses: an optional sign,
digits, optionally a dot with digits on at least one side. -/
def atomToNum : List Char → Option JSNum
  | [] => none
  | cs =>
    let body := if cs.head? = some '-' || cs.head? = some '+' then cs.tail else cs
    let neg : Bool := cs.head? = some '-'
    let intPart := body.takeWhile (fun c => c.isDigit)
    let rest := body.drop intPart.length
    let digitsToInt (ds : List Char) : Int :=
      ds.foldl (fun acc d => acc * 10 + ((d.toNat : Int) - 48)) 0
    let signed (n : Int) : Int := if neg then -n else n
    match rest with
    | [] =>
      if intPart.isEmpty then none
      else some ⟨signed (digitsToInt intPart), 1⟩
    | '.' :: fracCs =>
      let fracPart := fracCs.takeWhile (fun c => c.isDigit)
      if fracCs.drop fracPart.length ≠ [] then none
      else if intPart.isEmpty && fracPart.isEmpty then none
      else
        some ⟨signed (digitsToInt intPart * (10 : Int) ^ fracPart.length +
          digitsToInt fracPart), (10 : Int) ^ fracPart.length⟩
    | _ => none

/-- Parser errors (also raised by the tokenizer), carrying the error kind and
the 1-based line/column the source attaches to the `ParserError`. -/
inductive PErrKind where
  | unterminatedString
  | missingClosingBracket
  | mismatchedBrackets
  | unexpectedClosingBracket
  | unexpectedEndOfInput
  | outOfFuel
  deriving DecidableEq

/-- A structured `ParserError`: kind plus reported position. -/
structure PErr where
  kind : PErrKind
  line : Nat
  column : Nat

/-- String-body scanner of the tokenizer: consumes characters after the
opening quote, handling backslash escapes (`\n`, `\t`, any other escaped
character kept literally); returns the string contents, the characters
consumed (including the closing quote), and the remaining input, or fails at
end of input (unterminated string). -/
def scanString : List Char → Option (List Char × Nat × List Char)
  | [] => none
  | c :: rest =>
    if c = dquoteChar then some ([], 1, rest)
    else if c = '\\' then
      match rest with
      | [] => none
      | e :: rest2 =>
        let ch := if e = 'n' then '\n' else if e = 't' then '\t' else e
        match scanString rest2 with
        | some (s, n, rem) => some (ch :: s, n + 2, rem)
        | none => none
    else
      match scanString rest with
      | some (s, n, rem) => some (c :: s, n + 1, rem)
      | none => none

/-- Main tokenizer loop over the preprocessed character list.  `orig` is the
original (unpreprocessed) input that the source keeps "for error reporting";
`pos` is the current index into the **preprocessed** text, which the source
nevertheless passes to `getLineAndColumn` against `orig`. -/
def tokenizeLoop (orig : List Char) : Nat → List Char → Nat → Except PErr (List Token)
  | 0, _, _ => .error ⟨.outOfFuel, 0, 0⟩
  | _ + 1, [], _ => .ok []
  | fuel + 1, c :: rest, pos =>
    if c = ' ' then tokenizeLoop orig fuel rest (pos + 1)
    else if c = quoteChar || c = '(' || c = ')' || c = '[' || c = ']' then
      match tokenizeLoop orig fuel rest (pos + 1) with
      | .ok ts =>
        let lc := getLineAndColumn orig pos
        .ok (⟨.punct c, pos, lc.1, lc.2⟩ :: ts)
      | .error e => .error e
    else if c = dquoteChar then
      match scanString rest with
      | none =>
        let lc := getLineAndColumn orig pos
        .error ⟨.unterminatedString, lc.1, lc.2⟩
      | some (s, n, rem) =>
        match tokenizeLoop orig fuel rem (pos + 1 + n) with
        | .ok ts =>
          let lc := getLineAndColumn orig pos
          .ok (⟨.strT ⟨s⟩, pos, lc.1, lc.2⟩ :: ts)
        | .error e => .error e
    else
      let atom := (c :: rest).takeWhile (fun d => ¬ isAtomDelim d)
      let rem := (c :: rest).drop atom.length
      match tokenizeLoop orig fuel rem (pos + atom.length) with
      | .ok ts =>
        let lc := getLineAndColumn orig pos
        let tv : TokValue :=
          match atomToNum atom with
          | some q => .numT q
          | none => .symT ⟨atom⟩
        .ok (⟨tv, pos, lc.1, lc.2⟩ :: ts)
      | .error e => .error e

/-- Embedding of `tokenize(input)`: preprocess, then scan, keeping the original
input for the position computations. -/
def tokenize (input : List Char) : Except PErr (List Token) :=
  let chars := preprocess input
  tokenizeLoop input (chars.length + 1) chars 0

/-- JavaScript `token.value === c` for a one-character string `c`: true for the
matching punctuation token, and also for a string token whose contents are
exactly that character (the source compares `value` with `===`, which does not
look at the token's `type`). -/
def tokValueIs (t : Token) (c : Char) : Bool :=
  match t.value with
  | .punct p => p = c
  | .strT s => s = ⟨[c]⟩
  | .symT s => s = ⟨[c]⟩
  | .numT _ => false

mutual

/-- Embedding of the parser's `parseExpr`: parses one expression starting at
`pos` in `tokens`, returning the syntax value and the position after it.
Quote wraps the next expression as `['quote', e]`; brackets parse a list whose
closer must match; a stray closer or exhausted input is an error. -/
def parseExpr (tokens : List Token) : Nat → Nat → Except PErr (JSVal × Nat)
  | 0, _ => .error ⟨.outOfFuel, 0, 0⟩
  | fuel + 1, pos =>
    match tokens.get? pos with
    | none =>
      match tokens.getLast? with
      | some last => .error ⟨.unexpectedEndOfInput, last.line, last.column⟩
      | none => .error ⟨.unexpectedEndOfInput, 1, 0⟩
    | some token =>
      if tokValueIs token quoteChar then
        match parseExpr tokens fuel (pos + 1) with
        | .ok (q, p) => .ok (.arr [.str "quote", q], p)
        | .error e => .error e
      else if tokValueIs token '(' || tokValueIs token '[' then
        let closeBracket : Char := if tokValueIs token '(' then ')' else ']'
        match parseItems tokens fuel (pos + 1) with
        | .error e => .error e
        | .ok (items, p) =>
          match tokens.get? p with
          | none => .error ⟨.missingClosingBracket, token.line, token.column⟩
          | some closeToken =>
            if ¬ tokValueIs closeToken closeBracket then
              .error ⟨.mismatchedBrackets, closeToken.line, closeToken.column⟩
            else
              .ok (.arr items, p + 1)
      else if tokValueIs token ')' || tokValueIs token ']' then
        .error ⟨.unexpectedClosingBracket, token.line, token.column⟩
      else
        match token.value with
        | .strT s => .ok (.strObj s, pos + 1)
        | .numT q => .ok (.num q, pos + 1)
        | .symT s => .ok (.str s, pos + 1)
        | .punct c => .ok (.str ⟨[c]⟩, pos + 1)

/-- The parser's list-element loop: parses expressions until the next token is
a closing bracket of either kind or the input is exhausted. -/
def parseItems (tokens : List Token) : Nat → Nat → Except PErr (List JSVal × Nat)
  | 0, _ => .error ⟨.outOfFuel, 0, 0⟩
  | fuel + 1, pos =>
    match tokens.get? pos with
    | none => .ok ([], pos)
    | some t =>
      if tokValueIs t ')' || tokValueIs t ']' then .ok ([], pos)
      else
        match parseExpr tokens fuel pos with
        | .error e => .error e
        | .ok (e, p) =>
          match parseItems tokens fuel p with
          | .error e => .error e
          | .ok (rest, p2) => .ok (e :: rest, p2)

end

/-- The parser's top-level loop: parse expressions until tokens are
exhausted. -/
def parseTop (tokens : List Token) : Nat → Nat → Except PErr (List JSVal)
  | 0, _ => .error ⟨.outOfFuel, 0, 0⟩
  | fuel + 1, pos =>
    if pos < tokens.length then
      match parseExpr tokens fuel pos with
      | .error e => .error e
      | .ok (e, p) =>
        match parseTop tokens fuel p with
        | .error e => .error e
        | .ok rest => .ok (e :: rest)
    else .ok []

/-- Embedding of `parse(tokens, ...)` composed with `tokenize`: the full front
end from source text to the program's list of top-level syntax values. -/
def parseProgram (input : List Char) : Except PErr (List JSVal) :=
  match tokenize input with
  | .error e => .error e
  | .ok tokens => parseTop tokens (2 * tokens.length + 1) 0

/-- Evaluation errors, mirroring the `throw new Error(...)` sites of the
interpreter (the `catch` in `evaluate` only decorates messages and is not
modelled); `jsTypeError` stands for the TypeErrors JavaScript itself raises
(indexing `undefined`, `reduce` on a non-array or an empty array,
destructuring a non-iterable). -/
inductive EvalErr where
  | undefinedVariable (name : String)
  | missingNamedArgumentValue (marker : String)
  | notAFunction
  | unsupportedNamedArguments (keys : List String)
  | invalidTrackSteps
  | cannotEvaluate
  | jsTypeError
  | outOfFuel
  deriving DecidableEq

/-- JavaScript truthiness of a value. -/
def truthy : JSVal → Bool
  | .num q => ¬ JSNum.isZero q
  | .nan => false
  | .str s => s ≠ ""
  | .strObj _ => true
  | .boolV b => b
  | .arr _ => true
  | .obj _ => true
  | .closure _ _ _ => true
  | .primF _ => true
  | .envV _ => true
  | .jsNull => false
  | .undef => false

/-- First-match association-list lookup (JavaScript property access on the
object's own keys). -/
def objGet : List (String × JSVal) → String → Option JSVal
  | [], _ => none
  | p :: rest, k => if p.1 = k then some p.2 else objGet rest k

/-- JavaScript property assignment `m[k] = v`: overwrite the value in place if
the key exists, otherwise append (insertion order preserved). -/
def jsInsert (m : List (String × JSVal)) (k : String) (v : JSVal) : List (String × JSVal) :=
  if (m.map Prod.fst).contains k then
    m.map (fun p => if p.1 = k then (k, v) else p)
  else m ++ [(k, v)]

/-- Embedding of `extractValue`: an object with a truthy `type` field yields
its `value` field (`undefined` when absent); anything else is returned
unchanged. -/
def extractValue : JSVal → JSVal
  | .strObj s => .str s
  | .obj fields =>
    match objGet fields "type" with
    | some t => if truthy t then (objGet fields "value").getD .undef else .obj fields
    | none => .obj fields
  | v => v

/-- JavaScript `Number(...)` coercion; `Number` of a one-element array goes
through the element's string rendering and is modelled for a numeric element
only (other nestings are approximated by NaN, unreached by the claims). -/
def jsToNumber : JSVal → JSVal
  | .num q => .num q
  | .nan => .nan
  | .boolV b => .num (if b then ⟨1, 1⟩ else ⟨0, 1⟩)
  | .jsNull => .num ⟨0, 1⟩
  | .undef => .nan
  | .str s =>
    match atomToNum (jsTrim s.data) with
    | some q => .num q
    | none => if (jsTrim s.data).isEmpty then .num ⟨0, 1⟩ else .nan
  | .strObj _ => .nan
  | .obj _ => .nan
  | .arr [] => .num ⟨0, 1⟩
  | .arr [.num q] => .num q
  | .arr _ => .nan
  | .closure _ _ _ => .nan
  | .primF _ => .nan
  | .envV _ => .nan

/-- The `Number(x) === 1` test the music primitives use for active flags. -/
def numEq1 (v : JSVal) : Bool :=
  match v with
  | .num q => JSNum.eq q ⟨1, 1⟩
  | _ => false

/-- The named-argument access pattern of every music primitive:
`namedArgs.key ? f(namedArgs.key) : default`. -/
def namedOr (namedArgs : List (String × JSVal)) (key : String)
    (f : JSVal → JSVal) (dflt : JSVal) : JSVal :=
  match objGet namedArgs key with
  | some v => if truthy v then f v else dflt
  | none => dflt

/-- Does the string start with a colon (keyword-marker test)? -/
def startsWithColon (s : String) : Bool :=
  match s.data with
  | c :: _ => c = ':'
  | [] => false

/-- JavaScript `s.slice(1)`. -/
def strSlice1 (s : String) : String := ⟨s.data.drop 1⟩

/-- The keyword-marker test of `processArgs`: `extractValue(arg)` must be a
plain string starting with a colon; returns the full marker text. -/
def markerText (arg : JSVal) : Option String :=
  match extractValue arg with
  | .str s => if startsWithColon s then some s else none
  | _ => none

/-- The loop of `processArgs`: accumulates positional arguments and the named
argument object while scanning left to right. -/
def processArgsLoop : List JSVal → List JSVal → List (String × JSVal) →
    Except EvalErr (List JSVal × List (String × JSVal))
  | [], regularArgs, namedArgs => .ok (regularArgs, namedArgs)
  | arg :: rest, regularArgs, namedArgs =>
    match markerText arg with
    | some marker =>
      match rest with
      | [] => .error (.missingNamedArgumentValue marker)
      | value :: rest2 =>
        processArgsLoop rest2 regularArgs (jsInsert namedArgs (strSlice1 marker) value)
    | none => processArgsLoop rest (regularArgs ++ [arg]) namedArgs

/-- Embedding of `processArgs`: split an unevaluated argument list into
positional arguments and the named-argument mapping. -/
def processArgs (args : List JSVal) :
    Except EvalErr (List JSVal × List (String × JSVal)) :=
  processArgsLoop args [] []

/-- JavaScript strict equality `===`; reference equality of distinct
objects/arrays/functions is modelled as `false` (no theorem compares
object identities). -/
def jsStrictEq : JSVal → JSVal → Bool
  | .nan, _ => false
  | _, .nan => false
  | .num a, .num b => JSNum.eq a b
  | .str a, .str b => a = b
  | .boolV a, .boolV b => a = b
  | .undef, .undef => true
  | .jsNull, .jsNull => true
  | _, _ => false

/-- JavaScript `+`: numeric addition on numbers, concatenation on strings;
other coercions are approximated by NaN (unreached by the claims). -/
def jsAdd : JSVal → JSVal → JSVal
  | .num a, .num b => .num (JSNum.add a b)
  | .str a, .str b => .str (a ++ b)
  | _, _ => .nan

/-- JavaScript `-` (binary): both operands coerced with `Number`. -/
def jsSub (a b : JSVal) : JSVal :=
  match jsToNumber a, jsToNumber b with
  | .num x, .num y => .num (JSNum.sub x y)
  | _, _ => .nan

/-- JavaScript unary `-`. -/
def jsNeg (a : JSVal) : JSVal :=
  match jsToNumber a with
  | .num x => .num (JSNum.neg x)
  | _ => .nan

/-- JavaScript `*`. -/
def jsMul (a b : JSVal) : JSVal :=
  match jsToNumber a, jsToNumber b with
  | .num x, .num y => .num (JSNum.mul x y)
  | _, _ => .nan

/-- JavaScript `/`; division by zero yields Infinity in the source,
approximated by NaN (unreached by the claims). -/
def jsDiv (a b : JSVal) : JSVal :=
  match jsToNumber a, jsToNumber b with
  | .num x, .num y => if JSNum.isZero y then .nan else .num (JSNum.div x y)
  | _, _ => .nan

/-- JavaScript `%` (remainder with the dividend's sign). -/
def jsMod (a b : JSVal) : JSVal :=
  match jsToNumber a, jsToNumber b with
  | .num x, .num y =>
    if JSNum.isZero y then .nan
    else .num (JSNum.sub x (JSNum.mul y ⟨JSNum.trunc (JSNum.div x y), 1⟩))
  | _, _ => .nan

/-- JavaScript `Math.pow`; non-integer exponents and `0` to a negative power
are approximated by NaN (unreached by the claims). -/
def jsPow (a b : JSVal) : JSVal :=
  match jsToNumber a, jsToNumber b with
  | .num x, .num y =>
    match JSNum.toInt? y with
    | some n =>
      if JSNum.isZero x && n < 0 then .nan else .num (JSNum.pow x n)
    | none => .nan
  | _, _ => .nan

/-- JavaScript `<` on two values: lexical on two strings, else numeric. -/
def jsLt : JSVal → JSVal → Bool
  | .str a, .str b => a < b
  | a, b =>
    match jsToNumber a, jsToNumber b with
    | .num x, .num y => JSNum.lt x y
    | _, _ => false

/-- JavaScript `<=` on two values. -/
def jsLe : JSVal → JSVal → Bool
  | .str a, .str b => a ≤ b
  | a, b =>
    match jsToNumber a, jsToNumber b with
    | .num x, .num y => JSNum.le x y
    | _, _ => false

/-- The chained-comparison scheme `args.every((v, i, arr) => i === 0 || r(arr[i-1], v))`. -/
def chainRel (r : JSVal → JSVal → Bool) : List JSVal → Bool
  | [] => true
  | [_] => true
  | a :: b :: rest => r a b && chainRel r (b :: rest)

/-- The primitive table's keys, in the insertion order of the source. -/
def primNames : List String :=
  ["+", "-", "*", "/", "mod", "pow",
   "=", "<", ">", "<=", ">=", "!=",
   "note", "chord", "sequence", "parallel", "beat-machine",
   "drum-machine", "arrangement", "track", "step", "effect",
   "debug-strings", "debug-named-args", "print"]

/-- The `first in primitives` test of `evalApplication`. -/
def isPrimName (s : String) : Bool := primNames.contains s

/-- The `musicPrimitivesList` of `evalApplication`. -/
def musicPrimNames : List String :=
  ["note", "chord", "sequence", "parallel", "beat-machine",
   "drum-machine", "arrangement", "track", "step", "effect"]

/-- `typeof fn === 'function'`: closures, primitive references, and
environment-lookup functions are callable. -/
def isFunctionVal : JSVal → Bool
  | .closure _ _ _ => true
  | .primF _ => true
  | .envV _ => true
  | _ => false

/-- JavaScript `typeof`, rendered as its result string. -/
def typeofStr : JSVal → String
  | .num _ => "number"
  | .nan => "number"
  | .str _ => "string"
  | .strObj _ => "object"
  | .obj _ => "object"
  | .arr _ => "object"
  | .jsNull => "object"
  | .boolV _ => "boolean"
  | .closure _ _ _ => "function"
  | .primF _ => "function"
  | .envV _ => "function"
  | .undef => "undefined"

/-- The `'type' in arg` membership test used by `debug-strings` (guarded by
`arg && typeof arg === 'object'`). -/
def hasTypeProp : JSVal → Bool
  | .strObj _ => true
  | .obj fields => (fields.map Prod.fst).contains "type"
  | _ => false

/-- JavaScript property-key coercion; binding and parameter names in programs
are plain strings, the string rendering of other values is approximated by a
fixed placeholder (unreached by the claims). -/
def keyStr : JSVal → String
  | .str s => s
  | _ => "object"

/-- Environment lookup: walk the frame chain, failing with `UndefinedVariable`
when no frame binds the name. -/
def lookupEnv : JSEnv → String → Except EvalErr JSVal
  | [], name => .error (.undefinedVariable name)
  | frame :: parents, name =>
    match objGet frame name with
    | some v => .ok v
    | none => lookupEnv parents name

/-- Embedding of `evalString` on a plain string: an old-format `"`-prefixed
string is a literal with the quotes sliced off, anything else is a symbol
looked up in the environment. -/
def evalString (s : String) (env : JSEnv) : Except EvalErr JSVal :=
  if s.data.head? = some dquoteChar then .ok (.str ⟨(s.data.drop 1).dropLast⟩)
  else lookupEnv env s

/-- Closure invocation's parameter binding: `params.reduce((acc, param, i) =>
extendEnv(acc, { [param]: functionArgs[i] }), env)` — each parameter gets one
new frame binding it to the i-th raw JavaScript call argument. -/
def bindParams (functionArgs : List JSVal) : List JSVal → Nat → JSEnv → JSEnv
  | [], _, env => env
  | p :: ps, i, env =>
    bindParams functionArgs ps (i + 1) ([(keyStr p, functionArgs.getD i .undef)] :: env)

mutual

/-- Embedding of `evaluate(expr, env)`: token objects dispatch on their `type`
tag, numbers are themselves, plain strings go through `evalString`, the empty
list is itself, a non-empty list is first tried as a special form and falls
through to function application exactly when the special-form result is
`null`, and everything else raises the cannot-evaluate error. -/
def evaluate : Nat → JSVal → JSEnv → Except EvalErr JSVal
  | 0, _, _ => .error .outOfFuel
  | fuel + 1, expr, env =>
    match expr with
    | .strObj s => .ok (.str s)
    | .obj fields =>
      match objGet fields "type" with
      | some t =>
        if truthy t then
          if jsStrictEq t (.str "number") || jsStrictEq t (.str "string") then
            .ok ((objGet fields "value").getD .undef)
          else if jsStrictEq t (.str "symbol") then
            lookupEnv env (keyStr ((objGet fields "value").getD .undef))
          else .error .cannotEvaluate
        else .error .cannotEvaluate
      | none => .error .cannotEvaluate
    | .num q => .ok (.num q)
    | .nan => .ok .nan
    | .str s => evalString s env
    | .arr [] => .ok (.arr [])
    | .arr (first :: rest) =>
      match evalSpecialForm fuel first rest env with
      | .error e => .error e
      | .ok v =>
        match v with
        | .jsNull => evalApplication fuel first rest env
        | _ => .ok v
    | .boolV _ => .error .cannotEvaluate
    | .closure _ _ _ => .error .cannotEvaluate
    | .primF _ => .error .cannotEvaluate
    | .envV _ => .error .cannotEvaluate
    | .jsNull => .error .cannotEvaluate
    | .undef => .error .cannotEvaluate

/-- Embedding of `evalSpecialForm`: dispatch on the head symbol; `quote`
returns its first argument unevaluated (or `undefined`), and a head that is no
special form yields `null` — the caller's not-a-special-form marker. -/
def evalSpecialForm : Nat → JSVal → List JSVal → JSEnv → Except EvalErr JSVal
  | 0, _, _, _ => .error .outOfFuel
  | fuel + 1, form, rest, env =>
    match form with
    | .str s =>
      if s = "quote" then .ok (rest.headD .undef)
      else if s = "let" then evalLet fuel rest env
      else if s = "lambda" then
        match rest with
        | [] => .ok (.closure .undef [] env)
        | params :: body => .ok (.closure params body env)
      else if s = "if" then evalIf fuel rest env
      else .ok .jsNull
    | _ => .ok .jsNull

/-- Embedding of `evalLet`: the bindings expression is taken literally when it
is a quote form, else evaluated; the binding pairs are folded left to right,
each extending the environment seen by the later ones; the body is evaluated
in sequence in the final environment. -/
def evalLet : Nat → List JSVal → JSEnv → Except EvalErr JSVal
  | 0, _, _ => .error .outOfFuel
  | fuel + 1, args, env =>
    match args with
    | [] => .error .jsTypeError
    | quotedBindings :: body =>
      let pairsE : Except EvalErr JSVal :=
        match quotedBindings with
        | .arr (h :: t) =>
          if jsStrictEq h (.str "quote") then .ok (t.headD .undef)
          else evaluate fuel quotedBindings env
        | _ => evaluate fuel quotedBindings env
      match pairsE with
      | .error e => .error e
      | .ok bindingPairs =>
        match bindingPairs with
        | .arr pairs =>
          match evalBindings fuel pairs env with
          | .error e => .error e
          | .ok newEnv => evalSeq fuel body newEnv
        | _ => .error .jsTypeError

/-- The binding fold of `evalLet`: each `[name, valueExpr]` pair is evaluated
in the environment accumulated so far and pushed as one new frame. -/
def evalBindings : Nat → List JSVal → JSEnv → Except EvalErr JSEnv
  | 0, _, _ => .error .outOfFuel
  | _ + 1, [], env => .ok env
  | fuel + 1, binding :: rest, env =>
    match binding with
    | .arr es =>
      match evaluate fuel ((es.drop 1).headD .undef) env with
      | .error e => .error e
      | .ok value =>
        evalBindings fuel rest ([(keyStr (es.headD .undef), value)] :: env)
    | _ => .error .jsTypeError

/-- The body fold `body.reduce((_, expr) => evaluate(expr, newEnv), null)`:
every form is evaluated in order, the last result (or `null` for an empty
body) is returned. -/
def evalSeq : Nat → List JSVal → JSEnv → Except EvalErr JSVal
  | 0, _, _ => .error .outOfFuel
  | _ + 1, [], _ => .ok .jsNull
  | fuel + 1, e :: es, env =>
    match evaluate fuel e env with
    | .error err => .error err
    | .ok v =>
      match es with
      | [] => .ok v
      | _ => evalSeq fuel es env

/-- Embedding of `evalIf`: evaluate the condition and branch on its
truthiness (a missing branch is `undefined` and fails when evaluated). -/
def evalIf : Nat → List JSVal → JSEnv → Except EvalErr JSVal
  | 0, _, _ => .error .outOfFuel
  | fuel + 1, args, env =>
    match evaluate fuel (args.headD .undef) env with
    | .error e => .error e
    | .ok c =>
      if truthy c then evaluate fuel ((args.drop 1).headD .undef) env
      else evaluate fuel ((args.drop 2).headD .undef) env

/-- Left-to-right evaluation of a list of expressions (`.map(arg =>
evaluate(arg, env))`, aborting at the first error). -/
def evalList : Nat → List JSVal → JSEnv → Except EvalErr (List JSVal)
  | 0, _, _ => .error .outOfFuel
  | _ + 1, [], _ => .ok []
  | fuel + 1, e :: es, env =>
    match evaluate fuel e env with
    | .error err => .error err
    | .ok v =>
      match evalList fuel es env with
      | .error err => .error err
      | .ok vs => .ok (v :: vs)

/-- Evaluation of the named-argument mapping's values, keys preserved in
insertion order (`Object.fromEntries(Object.entries(...).map(...))`). -/
def evalNamed : Nat → List (String × JSVal) → JSEnv → Except EvalErr (List (String × JSVal))
  | 0, _, _ => .error .outOfFuel
  | _ + 1, [], _ => .ok []
  | fuel + 1, (k, e) :: rest, env =>
    match evaluate fuel e env with
    | .error err => .error err
    | .ok v =>
      match evalNamed fuel rest env with
      | .error err => .error err
      | .ok vs => .ok ((k, v) :: vs)

/-- Embedding of `evalApplication`: resolve the head (primitive table first,
else evaluate it), split and evaluate the arguments, reject named arguments
for functions that do not accept them (`fn.length >= 3` is false for every
function the source defines, since default and rest parameters do not count
toward `.length`), then invoke.  A closure is called like any JavaScript
function with the three arguments `(evaluatedArgs, env, namedArgs)`. -/
def evalApplication : Nat → JSVal → List JSVal → JSEnv → Except EvalErr JSVal
  | 0, _, _, _ => .error .outOfFuel
  | fuel + 1, first, rest, env =>
    let fnE : Except EvalErr JSVal :=
      match first with
      | .str s => if isPrimName s then .ok (.primF s) else evaluate fuel first env
      | _ => evaluate fuel first env
    match fnE with
    | .error e => .error e
    | .ok fn =>
      match processArgs rest with
      | .error e => .error e
      | .ok (regularArgs, namedArgs) =>
        match evalList fuel regularArgs env with
        | .error e => .error e
        | .ok evaluatedArgs =>
          match evalNamed fuel namedArgs env with
          | .error e => .error e
          | .ok evaluatedNamedArgs =>
            if ¬ isFunctionVal fn then .error .notAFunction
            else
              let acceptsNamedArgs : Bool :=
                match first with
                | .str s =>
                  musicPrimNames.contains s || s = "debug-named-args" || s = "debug-strings"
                | _ => false
              if ¬ evaluatedNamedArgs.isEmpty && ¬ acceptsNamedArgs then
                .error (.unsupportedNamedArguments (evaluatedNamedArgs.map Prod.fst))
              else
                match fn with
                | .primF name => applyPrim fuel name evaluatedArgs env evaluatedNamedArgs
                | .closure params body cenv =>
                  invokeClosure fuel params body cenv
                    [.arr evaluatedArgs, .envV env, .obj evaluatedNamedArgs]
                | .envV ce => lookupEnv ce (keyStr (.arr evaluatedArgs))
                | _ => .error .notAFunction

/-- Invocation of a user closure: the captured `params` value must be an array
(anything else makes `params.reduce` throw); each parameter is bound to the
corresponding raw call argument and the body is evaluated in sequence over
the captured environment. -/
def invokeClosure : Nat → JSVal → List JSVal → JSEnv → List JSVal → Except EvalErr JSVal
  | 0, _, _, _, _ => .error .outOfFuel
  | fuel + 1, params, body, cenv, functionArgs =>
    match params with
    | .arr ps => evalSeq fuel body (bindParams functionArgs ps 0 cenv)
    | _ => .error .jsTypeError

/-- The primitive library: arithmetic and chained comparisons, the music
constructors with their named-argument defaults, and the debug helpers. -/
def applyPrim : Nat → String → List JSVal → JSEnv → List (String × JSVal) →
    Except EvalErr JSVal
  | 0, _, _, _, _ => .error .outOfFuel
  | fuel + 1, name, args, env, namedArgs =>
    if name = "+" then .ok (args.foldl jsAdd (.num ⟨0, 1⟩))
    else if name = "-" then
      match args with
      | [] => .error .jsTypeError
      | [a] => .ok (jsNeg a)
      | a :: rest => .ok (rest.foldl jsSub a)
    else if name = "*" then .ok (args.foldl jsMul (.num ⟨1, 1⟩))
    else if name = "/" then
      match args with
      | [] => .error .jsTypeError
      | [a] => .ok (jsDiv (.num ⟨1, 1⟩) a)
      | a :: rest => .ok (rest.foldl jsDiv a)
    else if name = "mod" then
      match args with
      | [] => .error .jsTypeError
      | [a, b] => .ok (jsMod a b)
      | [a] => .ok a
      | a :: rest => .ok (rest.foldl jsMod a)
    else if name = "pow" then
      match args with
      | [] => .error .jsTypeError
      | [a, b] => .ok (jsPow a b)
      | [a] => .ok a
      | a :: rest => .ok (rest.foldl jsPow a)
    else if name = "=" then .ok (.boolV (chainRel jsStrictEq args))
    else if name = "<" then .ok (.boolV (chainRel jsLt args))
    else if name = ">" then .ok (.boolV (chainRel (fun a b => jsLt b a) args))
    else if name = "<=" then .ok (.boolV (chainRel jsLe args))
    else if name = ">=" then .ok (.boolV (chainRel (fun a b => jsLe b a) args))
    else if name = "!=" then
      match args with
      | [a, b] => .ok (.boolV (¬ jsStrictEq a b))
      | _ => .ok (.boolV (¬ chainRel jsStrictEq args))
    else if name = "note" then
      let pitch := args.headD .undef
      let duration :=
        match (args.drop 1).headD .undef with
        | .undef => .num ⟨1, 1⟩
        | v => v
      .ok (.obj [("type", .str "note"),
        ("pitch", extractValue pitch),
        ("duration", jsToNumber (extractValue duration)),
        ("velocity", namedOr namedArgs "velocity" extractValue (.num ⟨7, 10⟩)),
        ("instrument", namedOr namedArgs "instrument" extractValue (.str "default"))])
    else if name = "chord" then
      let notes := args.headD .undef
      let duration :=
        match (args.drop 1).headD .undef with
        | .undef => .num ⟨1, 1⟩
        | v => v
      let processedNotes :=
        match notes with
        | .arr l => JSVal.arr (l.map extractValue)
        | v => JSVal.arr [extractValue v]
      .ok (.obj [("type", .str "chord"),
        ("notes", processedNotes),
        ("duration", jsToNumber (extractValue duration)),
        ("velocity", namedOr namedArgs "velocity" extractValue (.num ⟨7, 10⟩)),
        ("instrument", namedOr namedArgs "instrument" extractValue (.str "default"))])
    else if name = "sequence" then
      .ok (.obj [("type", .str "sequence"), ("events", .arr args)])
    else if name = "parallel" then
      .ok (.obj [("type", .str "parallel"), ("events", .arr args)])
    else if name = "beat-machine" then
      let pattern := args.headD .undef
      let sounds := (args.drop 1).headD .undef
      let processedSounds :=
        match sounds with
        | .arr l => JSVal.arr (l.map extractValue)
        | v => JSVal.arr [extractValue v]
      .ok (.obj [("type", .str "beat-machine"),
        ("pattern", extractValue pattern),
        ("sounds", processedSounds),
        ("tempo", namedOr namedArgs "tempo" (fun v => jsToNumber (extractValue v)) (.num ⟨120, 1⟩)),
        ("swing", namedOr namedArgs "swing" (fun v => jsToNumber (extractValue v)) (.num ⟨0, 1⟩))])
    else if name = "drum-machine" then
      .ok (.obj [("type", .str "drum-machine"),
        ("arrangements", .arr args),
        ("tempo", namedOr namedArgs "tempo" (fun v => jsToNumber (extractValue v)) (.num ⟨120, 1⟩)),
        ("signature", namedOr namedArgs "signature" (fun v => jsToNumber (extractValue v)) (.num ⟨4, 1⟩))])
    else if name = "arrangement" then
      .ok (.obj [("type", .str "arrangement"),
        ("tracks", .arr args),
        ("active", namedOr namedArgs "active"
          (fun v => .boolV (numEq1 (jsToNumber (extractValue v)))) (.boolV true)),
        ("bars", namedOr namedArgs "bars" (fun v => jsToNumber (extractValue v)) (.num ⟨1, 1⟩))])
    else if name = "track" then
      let soundName := args.headD .undef
      let steps := (args.drop 1).headD .undef
      match steps with
      | .arr ss =>
        match evalList fuel ss env with
        | .error e => .error e
        | .ok evaluatedSteps =>
          .ok (.obj [("type", .str "track"),
            ("soundName", extractValue soundName),
            ("steps", .arr evaluatedSteps)])
      | _ => .error .invalidTrackSteps
    else if name = "step" then
      let active := args.headD .undef
      .ok (.obj [("type", .str "step"),
        ("active", .boolV (numEq1 (jsToNumber (extractValue active)))),
        ("pitch", namedOr namedArgs "pitch" (fun v => jsToNumber (extractValue v)) (.num ⟨0, 1⟩)),
        ("volume", namedOr namedArgs "volume" (fun v => jsToNumber (extractValue v)) (.num ⟨0, 1⟩)),
        ("duration", namedOr namedArgs "duration" (fun v => jsToNumber (extractValue v)) (.num ⟨1, 4⟩))])
    else if name = "effect" then
      let effectType := args.headD .undef
      let target := args.getLast?.getD .undef
      let params := (args.drop 1).dropLast
      .ok (.obj [("type", .str "effect"),
        ("effectType", extractValue effectType),
        ("params", .arr (params.map extractValue)),
        ("target", target)])
    else if name = "print" then
      match evalList fuel args env with
      | .error e => .error e
      | .ok vs =>
        match vs.getLast? with
        | none => .ok .jsNull
        | some v => .ok (if truthy v then v else .jsNull)
    else if name = "debug-strings" then
      match debugStringsList fuel args env with
      | .error e => .error e
      | .ok entries => .ok (.arr entries)
    else if name = "debug-named-args" then
      match debugEntryList fuel args env with
      | .error e => .error e
      | .ok regs =>
        match debugNamedList fuel namedArgs env with
        | .error e => .error e
        | .ok named =>
          .ok (.obj [("regularArgs", .arr regs), ("namedArgs", .arr named)])
    else .error .notAFunction

/-- The per-argument records built by `debug-strings`. -/
def debugStringsList : Nat → List JSVal → JSEnv → Except EvalErr (List JSVal)
  | 0, _, _ => .error .outOfFuel
  | _ + 1, [], _ => .ok []
  | fuel + 1, a :: rest, env =>
    match evaluate fuel a env with
    | .error e => .error e
    | .ok ev =>
      match debugStringsList fuel rest env with
      | .error e => .error e
      | .ok others =>
        .ok (.obj [("original", a),
          ("type", .str (typeofStr a)),
          ("isObject", .boolV (typeofStr a = "object")),
          ("hasType", .boolV (truthy a && hasTypeProp a)),
          ("extractedValue", extractValue a),
          ("evaluated", ev)] :: others)

/-- The per-argument records built by `debug-named-args`. -/
def debugEntryList : Nat → List JSVal → JSEnv → Except EvalErr (List JSVal)
  | 0, _, _ => .error .outOfFuel
  | _ + 1, [], _ => .ok []
  | fuel + 1, a :: rest, env =>
    match evaluate fuel a env with
    | .error e => .error e
    | .ok ev =>
      match debugEntryList fuel rest env with
      | .error e => .error e
      | .ok others =>
        .ok (.obj [("original", a),
          ("type", .str (typeofStr a)),
          ("extractedValue", extractValue a),
          ("evaluated", ev)] :: others)

/-- The named-argument records built by `debug-named-args`. -/
def debugNamedList : Nat → List (String × JSVal) → JSEnv → Except EvalErr (List JSVal)
  | 0, _, _ => .error .outOfFuel
  | _ + 1, [], _ => .ok []
  | fuel + 1, (k, v) :: rest, env =>
    match evaluate fuel v env with
    | .error e => .error e
    | .ok ev =>
      match debugNamedList fuel rest env with
      | .error e => .error e
      | .ok others =>
        .ok (.obj [("key", .str k),
          ("value", .obj [("original", v),
            ("type", .str (typeofStr v)),
            ("extractedValue", extractValue v),
            ("evaluated", ev)])] :: others)

end

/-- The global environment: one frame binding every primitive name to its
primitive-function reference. -/
def globalEnv : JSEnv := [primNames.map (fun n => (n, JSVal.primF n))]

/-- Embedding of `interpret(ast)`: evaluate each top-level form against one
fresh global environment, left to right. -/
def interpret (fuel : Nat) (ast : List JSVal) : Except EvalErr (List JSVal) :=
  evalList fuel ast globalEnv

/-- An error of the whole pipeline: from the parser or from the evaluator. -/
inductive RunErr where
  | parseErr (e : PErr)
  | evalErr (e : EvalErr)

/-- The full pipeline on a source string: tokenize, parse, interpret. -/
def run (input : String) : Except RunErr (List JSVal) :=
  match parseProgram input.data with
  | .error e => .error (.parseErr e)
  | .ok ast =>
    match interpret 1000 ast with
    | .error e => .error (.evalErr e)
    | .ok vs => .ok vs

/-- JavaScript `a || b`. -/
def jsOr (a b : JSVal) : JSVal := if truthy a then a else b

/-- JavaScript `null` for an absent lookup result. -/
def optV : Option JSVal → JSVal
  | none => .jsNull
  | some v => v

/-- The numeric conversion `isNaN(value) ? value : Number(value)` applied by
`findArgument` to the value it returns. -/
def numify (v : JSVal) : JSVal :=
  match jsToNumber v with
  | .num q => .num q
  | _ => v

/-- Embedding of `parser.findArgument(node, argName)` from `parser.js`: scan
the node for an element strictly equal to the argument name that still has a
following element, and return that next element (numified); `null` (here
`none`) when no such pair exists. -/
def findArgument : List JSVal → String → Option JSVal
  | a :: b :: rest, argName =>
    if jsStrictEq a (.str argName) then some (numify b)
    else findArgument (b :: rest) argName
  | _, _ => none

/-- The `bars` field `extractData` stores on a track record:
`this.findArgument(trackNode, ':bars') || 1`. -/
def extractTrackBars (trackNode : List JSVal) : JSVal :=
  jsOr (optV (findArgument trackNode ":bars")) (.num ⟨1, 1⟩)

/-- The `time` field `extractData` stores on a track record:
`this.findArgument(trackNode, ':time') || 16`. -/
def extractTrackTime (trackNode : List JSVal) : JSVal :=
  jsOr (optV (findArgument trackNode ":time")) (.num ⟨16, 1⟩)

/-- The `bars` field `extractData` stores on an arrangement record:
`this.findArgument(node, ':bars') || 1`. -/
def extractArrangementBars (node : List JSVal) : JSVal :=
  jsOr (optV (findArgument node ":bars")) (.num ⟨1, 1⟩)

/-- The effective track length fallback of the player's `createParts`:
`track.bars || arrangementBars`. -/
def effectiveTrackBars (trackBars arrangementBars : JSVal) : JSVal :=
  jsOr trackBars arrangementBars

/-- The per-track note capacity of `createParts`:
`(track.time || 16) * (track.bars || arrangementBars)`. -/
def totalNotes (trackTime trackBars arrangementBars : JSVal) : JSVal :=
  jsMul (jsOr trackTime (.num ⟨16, 1⟩)) (jsOr trackBars arrangementBars)

/-- The argument-splitting rule in the words of the (amended) specification:
scanning left to right, any argument whose extracted value is a string
beginning with a colon — a symbol, or a string literal, since keyword
detection applies `extractValue` first — consumes the next argument as that
keyword's value; other arguments stay positional in their original order; a
trailing marker with no following argument is the missing-named-argument-value
error.  Keyword pairs are collected in scan order with duplicates kept. -/
def splitArgsSpec : List JSVal → Except EvalErr (List JSVal × List (String × JSVal))
  | [] => .ok ([], [])
  | a :: rest =>
    match markerText a with
    | some marker =>
      match rest with
      | [] => .error (.missingNamedArgumentValue marker)
      | v :: rest2 =>
        match splitArgsSpec rest2 with
        | .error e => .error e
        | .ok (pos, pairs) => .ok (pos, (strSlice1 marker, v) :: pairs)
    | none =>
      match splitArgsSpec rest with
      | .error e => .error e
      | .ok (pos, pairs) => .ok (a :: pos, pairs)

/-- The part of a named-argument mapping a music primitive can observe: the
value at a key when that value is truthy, nothing otherwise (falsy values are
indistinguishable from absent keys under the `namedArgs.key ? ... : default`
access pattern). -/
def namedProj (namedArgs : List (String × JSVal)) (k : String) : Option JSVal :=
  match objGet namedArgs k with
  | some v => if truthy v then some v else none
  | none => none

/-- A music primitive's named-argument access only depends on the observable
projection of the mapping. -/
theorem namedOr_congr (n1 n2 : List (String × JSVal)) (k : String)
    (h : namedProj n1 k = namedProj n2 k) (f : JSVal → JSVal) (d : JSVal) :
    namedOr n1 k f d = namedOr n2 k f d := by
  unfold namedProj at h
  unfold namedOr
  cases h1 : objGet n1 k with
  | none =>
    cases h2 : objGet n2 k with
    | none => rfl
    | some v2 =>
      rw [h1, h2] at h
      by_cases t2 : truthy v2
      · simp [t2] at h
      · simp [t2]
  | some v1 =>
    cases h2 : objGet n2 k with
    | none =>
      rw [h1, h2] at h
      by_cases t1 : truthy v1
      · simp [t1] at h
      · simp [t1]
    | some v2 =>
      rw [h1, h2] at h
      by_cases t1 : truthy v1 <;> by_cases t2 : truthy v2 <;>
        simp [t1, t2] at h ⊢
      · exact h ▸ rfl

/-- The `processArgs` loop computes the specification-style split: positional
arguments are appended to the accumulator, and the named-argument object is
the scan-ordered keyword pairs folded through JavaScript property
assignment. -/
theorem processArgsLoop_spec :
    ∀ (n : Nat) (args : List JSVal), args.length ≤ n →
      ∀ reg named,
        processArgsLoop args reg named =
          match splitArgsSpec args with
          | .error e => .error e
          | .ok (pos, pairs) =>
            .ok (reg ++ pos, pairs.foldl (fun m kv => jsInsert m kv.1 kv.2) named) := by
  intro n
  induction n with
  | zero =>
    intro args h reg named
    have hnil : args = [] := List.length_eq_zero.mp (Nat.le_zero.mp h)
    subst hnil
    simp [processArgsLoop, splitArgsSpec]
  | succ n ih =>
    intro args h reg named
    cases args with
    | nil => simp [processArgsLoop, splitArgsSpec]
    | cons a rest =>
      simp only [processArgsLoop, splitArgsSpec]
      cases hm : markerText a with
      | none =>
        simp only []
        rw [ih rest (by simp only [List.length_cons] at h; omega) (reg ++ [a]) named]
        cases hs : splitArgsSpec rest with
        | error e => simp
        | ok pr =>
          cases pr with
          | mk pos pairs => simp
      | some marker =>
        cases rest with
        | nil => simp
        | cons v rest2 =>
          dsimp only
          rw [ih rest2 (by simp only [List.length_cons] at h ⊢; omega) reg
            (jsInsert named (strSlice1 marker) v)]
          cases hs : splitArgsSpec rest2 with
          | error e => simp
          | ok pr =>
            cases pr with
            | mk pos pairs => simp [List.foldl_cons]

/-- C1: parsing and interpreting the program
`(drum-machine :tempo 100 :signature 4 (arrangement :active 1 :bars 1 (track
"kick" '((step 1)(step 0)(step 1)(step 0)))))` yields exactly one top-level
result: a drum-machine descriptor with tempo 100 and signature 4 holding
exactly one arrangement (active, bars 1) holding exactly one track named
"kick" whose four steps are active/inactive/active/inactive in order. -/
theorem claim1_drum_machine_end_to_end :
    run "(drum-machine :tempo 100 :signature 4 (arrangement :active 1 :bars 1 (track \"kick\" '((step 1)(step 0)(step 1)(step 0)))))" =
      .ok [.obj [("type", .str "drum-machine"),
        ("arrangements", .arr [.obj [("type", .str "arrangement"),
          ("tracks", .arr [.obj [("type", .str "track"),
            ("soundName", .str "kick"),
            ("steps", .arr [
              .obj [("type", .str "step"), ("active", .boolV true),
                ("pitch", .num ⟨0, 1⟩), ("volume", .num ⟨0, 1⟩), ("duration", .num ⟨1, 4⟩)],
              .obj [("type", .str "step"), ("active", .boolV false),
                ("pitch", .num ⟨0, 1⟩), ("volume", .num ⟨0, 1⟩), ("duration", .num ⟨1, 4⟩)],
              .obj [("type", .str "step"), ("active", .boolV true),
                ("pitch", .num ⟨0, 1⟩), ("volume", .num ⟨0, 1⟩), ("duration", .num ⟨1, 4⟩)],
              .obj [("type", .str "step"), ("active", .boolV false),
                ("pitch", .num ⟨0, 1⟩), ("volume", .num ⟨0, 1⟩), ("duration", .num ⟨1, 4⟩)]])]]),
          ("active", .boolV true),
          ("bars", .num ⟨1, 1⟩)]]),
        ("tempo", .num ⟨100, 1⟩),
        ("signature", .num ⟨4, 1⟩)]] := rfl

/-- C2 counterexample: a *string literal* `":a"` (not a symbol) is also
consumed as a keyword marker, because keyword detection applies
`extractValue` before testing for a leading colon; under the claim both
arguments would remain positional. -/
theorem claim2_counterexample :
    processArgs [.strObj ":a", .num ⟨5, 1⟩] = .ok ([], [("a", .num ⟨5, 1⟩)]) ∧
    processArgs [.strObj ":a", .num ⟨5, 1⟩] ≠ .ok ([.strObj ":a", .num ⟨5, 1⟩], []) := by
  refine ⟨rfl, ?_⟩
  intro h
  have he : processArgs [.strObj ":a", .num ⟨5, 1⟩] =
      .ok ([], [("a", .num ⟨5, 1⟩)]) := rfl
  rw [he] at h
  simp at h

/-- C2 amended: scanning left to right, every argument whose extracted value
is a string beginning with ':' — a symbol, or equally a string literal — is
consumed as a keyword marker taking the next argument as its value (keyed by
the marker text without the colon); the remaining arguments are positional in
their original order; a trailing marker fails with the
missing-named-argument-value error, which aborts evaluation of the call. -/
theorem claim2_amended :
    run "(note :velocity)" = .error (.evalErr (.missingNamedArgumentValue ":velocity")) ∧
    ∀ args : List JSVal,
      processArgs args =
        match splitArgsSpec args with
        | .error e => .error e
        | .ok (pos, pairs) =>
          .ok (pos, pairs.foldl (fun m kv => jsInsert m kv.1 kv.2) []) := by
  refine ⟨rfl, fun args => ?_⟩
  have h := processArgsLoop_spec args.length args (Nat.le_refl _) [] []
  rw [processArgs, h]
  cases hs : splitArgsSpec args with
  | error e => rfl
  | ok pr =>
    cases pr with
    | mk pos pairs => simp

/-- C3: the closure created by `lambda` evaluates its body in the environment
captured at its definition, so the program returns `10` even though the call
site rebinds `x` to `20`. -/
theorem claim3_lexical_scoping :
    run "(let '([x 10]) (let '([f (lambda () x)]) (let '([x 20]) (f))))" =
      .ok [.num ⟨10, 1⟩] := rfl

/-- C4 (code bug): a closure is invoked like a primitive with the three
JavaScript arguments `(evaluatedArgs, env, namedArgs)`, so its first parameter
is bound to the whole positional-argument array — `((lambda (x) x) 5)`
returns the one-element list `[5]`, not `5` as the specification requires. -/
theorem claim4_lambda_argument_binding :
    run "((lambda (x) x) 5)" = .ok [.arr [.num ⟨5, 1⟩]] ∧
    run "((lambda (x) x) 5)" ≠ .ok [.num ⟨5, 1⟩] := by
  refine ⟨rfl, ?_⟩
  intro h
  have he : run "((lambda (x) x) 5)" = .ok [.arr [.num ⟨5, 1⟩]] := rfl
  rw [he] at h
  simp at h

/-- C5 counterexample: a `let` with an empty body does not produce a neutral
empty value — `evalLet` returns `null`, which the evaluator's
not-a-special-form test sends into function application, failing with an
undefined-variable error for `let`. -/
theorem claim5_counterexample :
    run "(let '([x 1]))" = .error (.evalErr (.undefinedVariable "let")) := rfl

/-- C5 amended: `let` bindings are evaluated and folded left to right with
each binding visible to the later ones and to the body (`let*` semantics), the
body forms are evaluated in order in the final environment and the form's
value is the last body form's value; but an *empty* body does not yield a
neutral empty value — the `null` result falls through to function application
and raises an undefined-variable error for `let`. -/
theorem claim5_amended :
    run "(let '([x 1] [y (+ x 1)]) y)" = .ok [.num ⟨2, 1⟩] ∧
    run "(let '([x 1]) (+ x 1) (+ x 2))" = .ok [.num ⟨3, 1⟩] ∧
    run "(let '([x 1]))" = .error (.evalErr (.undefinedVariable "let")) :=
  ⟨rfl, rfl, rfl⟩

/-- C6: parsing `"(foo (bar)"` fails with a missing-closing-bracket error
located at the outer `(` (line 1, column 1); parsing `"(foo))"` fails with an
unexpected-closing-bracket error at the stray `)` (line 1, column 6); and
whenever a list's element scan stops at a token that is not the closer
matching the opening bracket (either kind), the parse fails with a
mismatched-brackets error at that token — in every case the parse yields a
single error, never a partial tree. -/
theorem claim6_bracket_errors :
    parseProgram "(foo (bar)".data = .error ⟨.missingClosingBracket, 1, 1⟩ ∧
    parseProgram "(foo))".data = .error ⟨.unexpectedClosingBracket, 1, 6⟩ ∧
    (∀ (tokens : List Token) (fuel pos : Nat) (token : Token) (items : List JSVal)
       (p : Nat) (closeToken : Token),
       tokens.get? pos = some token →
       tokValueIs token quoteChar = false →
       tokValueIs token '(' = true →
       parseItems tokens fuel (pos + 1) = .ok (items, p) →
       tokens.get? p = some closeToken →
       tokValueIs closeToken ')' = false →
       parseExpr tokens (fuel + 1) pos =
         .error ⟨.mismatchedBrackets, closeToken.line, closeToken.column⟩) ∧
    (∀ (tokens : List Token) (fuel pos : Nat) (token : Token) (items : List JSVal)
       (p : Nat) (closeToken : Token),
       tokens.get? pos = some token →
       tokValueIs token quoteChar = false →
       tokValueIs token '(' = false →
       tokValueIs token '[' = true →
       parseItems tokens fuel (pos + 1) = .ok (items, p) →
       tokens.get? p = some closeToken →
       tokValueIs closeToken ']' = false →
       parseExpr tokens (fuel + 1) pos =
         .error ⟨.mismatchedBrackets, closeToken.line, closeToken.column⟩) := by
  refine ⟨rfl, rfl, ?_, ?_⟩
  · intro tokens fuel pos token items p closeToken hget hq ho hitems hclose hwrong
    simp only [parseExpr]
    rw [hget]
    simp only [List.get?_eq_getElem?] at hclose
    simp [hq, ho, hitems, hclose, hwrong]
  · intro tokens fuel pos token items p closeToken hget hq ho1 ho2 hitems hclose hwrong
    simp only [parseExpr]
    rw [hget]
    simp only [List.get?_eq_getElem?] at hclose
    simp [hq, ho1, ho2, hitems, hclose, hwrong]

/-- Witness for C6's universal parts: the token streams of `"(a]"` and
`"[a)"` hit the mismatched-closer branch at the wrong-kind closer. -/
theorem claim6_bracket_errors_witness :
    parseItems [⟨.punct '(', 0, 1, 1⟩, ⟨.symT "a", 1, 1, 2⟩, ⟨.punct ']', 2, 1, 3⟩] 3 1 =
      .ok ([.str "a"], 2) ∧
    parseExpr [⟨.punct '(', 0, 1, 1⟩, ⟨.symT "a", 1, 1, 2⟩, ⟨.punct ']', 2, 1, 3⟩] 4 0 =
      .error ⟨.mismatchedBrackets, 1, 3⟩ ∧
    parseExpr [⟨.punct '[', 0, 1, 1⟩, ⟨.symT "a", 1, 1, 2⟩, ⟨.punct ')', 2, 1, 3⟩] 4 0 =
      .error ⟨.mismatchedBrackets, 1, 3⟩ :=
  ⟨rfl,
   claim6_bracket_errors.2.2.1
     [⟨.punct '(', 0, 1, 1⟩, ⟨.symT "a", 1, 1, 2⟩, ⟨.punct ']', 2, 1, 3⟩]
     3 0 ⟨.punct '(', 0, 1, 1⟩ [.str "a"] 2 ⟨.punct ']', 2, 1, 3⟩
     rfl rfl rfl rfl rfl rfl,
   claim6_bracket_errors.2.2.2
     [⟨.punct '[', 0, 1, 1⟩, ⟨.symT "a", 1, 1, 2⟩, ⟨.punct ')', 2, 1, 3⟩]
     3 0 ⟨.punct '[', 0, 1, 1⟩ [.str "a"] 2 ⟨.punct ')', 2, 1, 3⟩
     rfl rfl rfl rfl rfl rfl rfl⟩

/-- C7 counterexample: supplying `:active 0` to `arrangement` yields
`active = true`, because the evaluated value `0` is falsy and the
`namedArgs.active ? ... : true` pattern then substitutes the default. -/
theorem claim7_counterexample :
    run "(arrangement :active 0)" =
      .ok [.obj [("type", .str "arrangement"), ("tracks", .arr []),
        ("active", .boolV true), ("bars", .num ⟨1, 1⟩)]] ∧
    run "(arrangement :active 0)" ≠
      .ok [.obj [("type", .str "arrangement"), ("tracks", .arr []),
        ("active", .boolV false), ("bars", .num ⟨1, 1⟩)]] := by
  refine ⟨rfl, ?_⟩
  intro h
  have he : run "(arrangement :active 0)" =
      .ok [.obj [("type", .str "arrangement"), ("tracks", .arr []),
        ("active", .boolV true), ("bars", .num ⟨1, 1⟩)]] := rfl
  rw [he] at h
  simp at h

/-- C7 amended: `step`'s active flag is `flag == 1` for every numeric first
positional argument; `arrangement`'s active flag is `flag == 1` only when the
supplied `:active` value is truthy, and defaults to `true` both when the
argument is absent and when its value is falsy — so `:active 0` yields
`active = true`. -/
theorem claim7_amended :
    (∀ (fuel : Nat) (env : JSEnv) (args : List JSVal) (q : JSNum),
       applyPrim (fuel + 1) "arrangement" args env [("active", .num q)] =
         .ok (.obj [("type", .str "arrangement"), ("tracks", .arr args),
           ("active", .boolV (if q.num = 0 then true else JSNum.eq q ⟨1, 1⟩)),
           ("bars", .num ⟨1, 1⟩)])) ∧
    (∀ (fuel : Nat) (env : JSEnv) (q : JSNum),
       applyPrim (fuel + 1) "step" [.num q] env [] =
         .ok (.obj [("type", .str "step"), ("active", .boolV (JSNum.eq q ⟨1, 1⟩)),
           ("pitch", .num ⟨0, 1⟩), ("volume", .num ⟨0, 1⟩),
           ("duration", .num ⟨1, 4⟩)])) := by
  constructor
  · intro fuel env args q
    by_cases h : q.num = 0 <;>
      simp [applyPrim, namedOr, objGet, truthy, JSNum.isZero, h, numEq1,
        jsToNumber, extractValue]
  · intro fuel env q
    simp [applyPrim, namedOr, objGet, numEq1, jsToNumber, extractValue]

/-- C8 (code bug): tokenizing `";c\nfoo"` emits the token for `foo` with
line 1, column 1 — the position of offset 0 in the original text, where 0 is
the token's offset in the *preprocessed* text — although `foo` really starts
at offset 3 of the original text, i.e. at line 2, column 1 (comments are
stripped without producing tokens, but the emitted positions are not located
in the original, unstripped source). -/
theorem claim8_token_position_bug :
    tokenize ";c\nfoo".data = .ok [⟨.symT "foo", 0, 1, 1⟩] ∧
    ";c\nfoo".data.drop 3 = "foo".data ∧
    getLineAndColumn ";c\nfoo".data 3 = (2, 1) ∧
    ((1, 1) : Nat × Nat) ≠ (2, 1) :=
  ⟨rfl, rfl, rfl, by decide⟩

/-- C9 counterexample: in an arrangement with `:bars 3`, a track node with no
`:bars` argument gets `bars = 1` from `extractData` (`findArgument || 1`), and
the player's `track.bars || arrangementBars` fallback therefore yields 1, not
the arrangement's 3. -/
theorem claim9_counterexample :
    extractArrangementBars [.str "arrangement", .str ":active", .num ⟨1, 1⟩,
        .str ":bars", .num ⟨3, 1⟩,
        .arr [.str "track", .str "kick", .str "kick",
          .arr [.str "notes", .arr [.str "note", .str ":active", .num ⟨1, 1⟩]]]] =
      .num ⟨3, 1⟩ ∧
    extractTrackBars [.str "track", .str "kick", .str "kick",
        .arr [.str "notes", .arr [.str "note", .str ":active", .num ⟨1, 1⟩]]] =
      .num ⟨1, 1⟩ ∧
    effectiveTrackBars
        (extractTrackBars [.str "track", .str "kick", .str "kick",
          .arr [.str "notes", .arr [.str "note", .str ":active", .num ⟨1, 1⟩]]])
        (extractArrangementBars [.str "arrangement", .str ":active", .num ⟨1, 1⟩,
          .str ":bars", .num ⟨3, 1⟩,
          .arr [.str "track", .str "kick", .str "kick",
            .arr [.str "notes", .arr [.str "note", .str ":active", .num ⟨1, 1⟩]]]]) =
      .num ⟨1, 1⟩ ∧
    (JSVal.num ⟨1, 1⟩) ≠ .num ⟨3, 1⟩ := by
  refine ⟨rfl, rfl, rfl, ?_⟩
  simp [JSNum.mk.injEq]

/-- C9 amended: a track's effective bars value is always the track's own
`bars` field — the track's explicit `:bars` when a truthy one was supplied,
and `extractData`'s default `1` otherwise; the `createParts` fallback to the
enclosing arrangement's bars never fires, because `extractData` always stores
a truthy `bars` on the track. -/
theorem claim9_amended :
    (∀ (trackNode : List JSVal) (arrangementBars : JSVal),
       effectiveTrackBars (extractTrackBars trackNode) arrangementBars =
         extractTrackBars trackNode) ∧
    (∀ trackNode : List JSVal,
       findArgument trackNode ":bars" = none →
       extractTrackBars trackNode = .num ⟨1, 1⟩) ∧
    extractTrackBars [.str "track", .str "kick", .str "kick",
        .str ":bars", .num ⟨1, 1⟩] = .num ⟨1, 1⟩ := by
  refine ⟨?_, ?_, rfl⟩
  · intro trackNode arrangementBars
    by_cases h : truthy (optV (findArgument trackNode ":bars")) = true
    · unfold effectiveTrackBars extractTrackBars jsOr
      rw [if_pos h, if_pos h]
    · unfold effectiveTrackBars extractTrackBars jsOr
      rw [if_neg h, if_pos (show truthy (JSVal.num ⟨1, 1⟩) = true from rfl)]
  · intro trackNode h
    simp [extractTrackBars, h, optV, jsOr, truthy, JSNum.isZero]

/-- Witness for C9's amended theorem at a concrete track node without
`:bars` inside an arrangement whose bars value is 3. -/
theorem claim9_amended_witness :
    findArgument [.str "track", .str "kick", .str "kick"] ":bars" = none ∧
    extractTrackBars [.str "track", .str "kick", .str "kick"] = .num ⟨1, 1⟩ ∧
    effectiveTrackBars (extractTrackBars [.str "track", .str "kick", .str "kick"])
        (.num ⟨3, 1⟩) =
      extractTrackBars [.str "track", .str "kick", .str "kick"] :=
  ⟨rfl,
   claim9_amended.2.1 [.str "track", .str "kick", .str "kick"] rfl,
   claim9_amended.1 [.str "track", .str "kick", .str "kick"] (.num ⟨3, 1⟩)⟩

/-- C10: a named argument whose evaluated value is falsy is indistinguishable
from an absent one for every music primitive — `(note "C4" :velocity 0)`
yields velocity 0.7 and `(drum-machine :tempo 0)` yields tempo 120; in
general the result of a music primitive depends only on the truthy projection
of its named-argument mapping. -/
theorem claim10_falsy_named_defaults :
    run "(note \"C4\" :velocity 0)" =
      .ok [.obj [("type", .str "note"), ("pitch", .str "C4"),
        ("duration", .num ⟨1, 1⟩), ("velocity", .num ⟨7, 10⟩),
        ("instrument", .str "default")]] ∧
    run "(drum-machine :tempo 0)" =
      .ok [.obj [("type", .str "drum-machine"), ("arrangements", .arr []),
        ("tempo", .num ⟨120, 1⟩), ("signature", .num ⟨4, 1⟩)]] ∧
    (∀ (fuel : Nat) (name : String) (args : List JSVal) (env : JSEnv)
       (n1 n2 : List (String × JSVal)),
       name ∈ musicPrimNames →
       (∀ k, namedProj n1 k = namedProj n2 k) →
       applyPrim fuel name args env n1 = applyPrim fuel name args env n2) := by
  refine ⟨rfl, rfl, ?_⟩
  intro fuel name args env n1 n2 hmem hproj
  have hv : ∀ (key : String) (f : JSVal → JSVal) (d : JSVal),
      namedOr n1 key f d = namedOr n2 key f d :=
    fun k f d => namedOr_congr n1 n2 k (hproj k) f d
  cases fuel with
  | zero => rfl
  | succ m =>
    simp only [musicPrimNames, List.mem_cons, List.not_mem_nil, or_false] at hmem
    rcases hmem with h | h | h | h | h | h | h | h | h | h <;> subst h <;>
      simp [applyPrim, hv]

/-- Witness for C10's dependence statement: the mapping binding `velocity` to
the falsy `0` projects like the empty mapping, so `note` produces the same
descriptor for both. -/
theorem claim10_falsy_named_defaults_witness :
    ("note" ∈ musicPrimNames) ∧
    namedProj [("velocity", JSVal.num ⟨0, 1⟩)] "velocity" = namedProj [] "velocity" ∧
    applyPrim 5 "note" [.str "C4"] [] [("velocity", .num ⟨0, 1⟩)] =
      applyPrim 5 "note" [.str "C4"] [] [] :=
  ⟨by simp [musicPrimNames], rfl,
   claim10_falsy_named_defaults.2.2 5 "note" [.str "C4"] [] _ _
     (by simp [musicPrimNames])
     (fun k => by
       by_cases h : "velocity" = k <;>
         simp [namedProj, objGet, h, truthy, JSNum.isZero])⟩
